import Mathlib

/-!
Verification of the `management/server/peer` entity (peer.go).

Modelling conventions:
* `time.Time` and `time.Duration` are modelled as `Int` (nanoseconds); `time.Now()`
  becomes an explicit `now : Int` parameter, and `t.UTC()` is the identity on instants.
* Go pointers and slices are modelled with an explicit store (`Store`):
  `*PeerStatus` is an address into `Store.statusCells`, and `net.IP` (a Go byte
  slice) is an address into `Store.ipCells`, whose cells are the shared backing
  byte arrays.  Assigning a slice or pointer field copies the address only, exactly
  as Go copies a slice header or pointer; a nil pointer dereference is `none`.
* Methods that mutate the receiver in place return the updated `Peer`
  (and the updated `Store` when they touch the heap).
-/

namespace Netbird

/-- PeerStatus (peer.go lines 48-57): connectivity/session state of a peer. -/
structure PeerStatus where
  LastSeen : Int
  Connected : Bool
  LoginExpired : Bool
  RequiresApproval : Bool
deriving DecidableEq, Repr

/-- Location (peer.go lines 60-65): geo location information of a Peer.
`ConnectionIP` is a `net.IP`, i.e. an address of a byte-array cell in the store. -/
structure Location where
  ConnectionIP : Nat
  CountryCode : String
  CityName : String
  GeoNameID : Nat
deriving DecidableEq, Repr

/-- PeerSystemMeta (peer.go lines 68-79): reported system metadata, all strings. -/
structure PeerSystemMeta where
  Hostname : String
  GoOS : String
  Kernel : String
  Core : String
  Platform : String
  OS : String
  OSVersion : String
  WtVersion : String
  UIVersion : String
  KernelVersion : String
deriving DecidableEq, Repr

/-- Peer (peer.go lines 11-46).  `IP : net.IP` is a slice, modelled as the address
of its backing byte array; `Status : *PeerStatus` is a nullable pointer, modelled
as `Option` of an address. -/
structure Peer where
  ID : String
  AccountID : String
  Key : String
  SetupKey : String
  IP : Nat
  Meta : PeerSystemMeta
  Name : String
  DNSLabel : String
  Status : Option Nat
  UserID : String
  SSHKey : String
  SSHEnabled : Bool
  LoginExpirationEnabled : Bool
  LastLogin : Int
  Ephemeral : Bool
  Location : Location
deriving DecidableEq, Repr

/-- The heap: backing byte arrays of `net.IP` slices and `PeerStatus` objects
reachable through `*PeerStatus` pointers, addressed by index. -/
structure Store where
  ipCells : List (List Nat)
  statusCells : List PeerStatus
deriving DecidableEq, Repr

/-- Allocation of a fresh `PeerStatus` object (Go `&PeerStatus{...}`): the new cell
is appended and its address returned. -/
def Store.allocStatus (s : Store) (st : PeerStatus) : Store × Nat :=
  ({ s with statusCells := s.statusCells ++ [st] }, s.statusCells.length)

/-- In-place update of the whole status cell at address `a`. -/
def Store.setStatusCell (s : Store) (a : Nat) (st : PeerStatus) : Store :=
  { s with statusCells := s.statusCells.set a st }

/-- Go `ptr.LoginExpired = b` through a `*PeerStatus` pointer. -/
def Store.writeLoginExpired (s : Store) (a : Nat) (b : Bool) : Store :=
  match s.statusCells[a]? with
  | some st => s.setStatusCell a { st with LoginExpired := b }
  | none => s

/-- Go `ptr.Connected = b` through a `*PeerStatus` pointer. -/
def Store.writeConnected (s : Store) (a : Nat) (b : Bool) : Store :=
  match s.statusCells[a]? with
  | some st => s.setStatusCell a { st with Connected := b }
  | none => s

/-- Go `ip[i] = v`: in-place mutation of one byte of the backing array of a
`net.IP` slice. -/
def Store.writeIPByte (s : Store) (a i v : Nat) : Store :=
  match s.ipCells[a]? with
  | some bytes => { s with ipCells := s.ipCells.set a (bytes.set i v) }
  | none => s

/-- PeerStatus.Copy (peer.go lines 180-187): returns a freshly allocated
PeerStatus with identical field values.  `none` is the nil-pointer-dereference
panic (the receiver is a `*PeerStatus`). -/
def PeerStatus.Copy (s : Store) (a : Nat) : Option (Store × Nat) :=
  match s.statusCells[a]? with
  | some p =>
      some (s.allocStatus
        { LastSeen := p.LastSeen
          Connected := p.Connected
          LoginExpired := p.LoginExpired
          RequiresApproval := p.RequiresApproval })
  | none => none

/-- PeerSystemMeta.isEqual (peer.go lines 81-92): field-wise equality of all ten
metadata fields, in the source's order. -/
def PeerSystemMeta.isEqual (p other : PeerSystemMeta) : Bool :=
  p.Hostname == other.Hostname &&
  p.GoOS == other.GoOS &&
  p.Kernel == other.Kernel &&
  p.KernelVersion == other.KernelVersion &&
  p.Core == other.Core &&
  p.Platform == other.Platform &&
  p.OS == other.OS &&
  p.OSVersion == other.OSVersion &&
  p.WtVersion == other.WtVersion &&
  p.UIVersion == other.UIVersion

/-- Peer.AddedWithSSOLogin (peer.go lines 95-97). -/
def Peer.AddedWithSSOLogin (p : Peer) : Bool :=
  p.UserID != ""

/-- Peer.Copy (peer.go lines 100-123): builds a new Peer literal listing every
field.  `Status`, when non-nil, goes through `PeerStatus.Copy` (fresh cell);
`IP` and `Location` are copied as Go copies them: slice-header / value copy,
so the `IP` address (and `Location.ConnectionIP`) still point to the same
backing byte arrays. -/
def Peer.Copy (s : Store) (p : Peer) : Option (Store × Peer) :=
  match p.Status with
  | none =>
      some (s,
        { ID := p.ID
          AccountID := p.AccountID
          Key := p.Key
          SetupKey := p.SetupKey
          IP := p.IP
          Meta := p.Meta
          Name := p.Name
          DNSLabel := p.DNSLabel
          Status := none
          UserID := p.UserID
          SSHKey := p.SSHKey
          SSHEnabled := p.SSHEnabled
          LoginExpirationEnabled := p.LoginExpirationEnabled
          LastLogin := p.LastLogin
          Ephemeral := p.Ephemeral
          Location := p.Location })
  | some a =>
      match PeerStatus.Copy s a with
      | none => none
      | some (s1, a1) =>
          some (s1,
            { ID := p.ID
              AccountID := p.AccountID
              Key := p.Key
              SetupKey := p.SetupKey
              IP := p.IP
              Meta := p.Meta
              Name := p.Name
              DNSLabel := p.DNSLabel
              Status := some a1
              UserID := p.UserID
              SSHKey := p.SSHKey
              SSHEnabled := p.SSHEnabled
              LoginExpirationEnabled := p.LoginExpirationEnabled
              LastLogin := p.LastLogin
              Ephemeral := p.Ephemeral
              Location := p.Location })

/-- Peer.UpdateMetaIfNew (peer.go lines 127-138).  The Go method mutates the
receiver and returns a bool; here it returns the updated Peer and the bool. -/
def Peer.UpdateMetaIfNew (p : Peer) (meta : PeerSystemMeta) : Peer × Bool :=
  let meta := if meta.UIVersion == "" then { meta with UIVersion := p.Meta.UIVersion } else meta
  if p.Meta.isEqual meta then (p, false)
  else ({ p with Meta := meta }, true)

/-- The UIVersion adjustment at peer.go lines 129-131, factored out so theorems
can talk about the adjusted incoming metadata. -/
def Peer.adjustedMeta (p : Peer) (meta : PeerSystemMeta) : PeerSystemMeta :=
  if meta.UIVersion == "" then { meta with UIVersion := p.Meta.UIVersion } else meta

/-- Peer.MarkLoginExpired (peer.go lines 141-148): copies the current status
through the `p.Status` pointer (nil dereference is `none`), sets LoginExpired on
the fresh cell, forces Connected to false when `expired`, and installs the new
address in `p.Status`. -/
def Peer.MarkLoginExpired (s : Store) (p : Peer) (expired : Bool) :
    Option (Store × Peer) :=
  match p.Status with
  | none => none
  | some a =>
      match PeerStatus.Copy s a with
      | none => none
      | some (s1, a1) =>
          let s2 := s1.writeLoginExpired a1 expired
          let s3 := if expired then s2.writeConnected a1 false else s2
          some (s3, { p with Status := some a1 })

/-- Peer.LoginExpired (peer.go lines 156-164), with `time.Now()` passed in as
`now`.  Durations and instants are nanosecond `Int`s. -/
def Peer.LoginExpired (p : Peer) (expiresIn : Int) (now : Int) : Bool × Int :=
  if !p.AddedWithSSOLogin || !p.LoginExpirationEnabled then (false, 0)
  else
    let expiresAt := p.LastLogin + expiresIn
    let timeLeft := expiresAt - now
    (timeLeft ≤ 0, timeLeft)

/-- Peer.FQDN (peer.go lines 167-172). -/
def Peer.FQDN (p : Peer) (dnsDomain : String) : String :=
  if dnsDomain == "" then ""
  else p.DNSLabel ++ "." ++ dnsDomain

/-- Peer.UpdateLastLogin (peer.go lines 190-196), with `time.Now().UTC()` passed
in as `now`: sets LastLogin, installs a fresh status copy with LoginExpired
forced to false, and returns the mutated Peer. -/
def Peer.UpdateLastLogin (s : Store) (p : Peer) (now : Int) :
    Option (Store × Peer) :=
  let p1 := { p with LastLogin := now }
  match p1.Status with
  | none => none
  | some a =>
      match PeerStatus.Copy s a with
      | none => none
      | some (s1, a1) =>
          let s2 := s1.writeLoginExpired a1 false
          some (s2, { p1 with Status := some a1 })

/-! Concrete instances used by witnesses and counterexamples. -/

/-- A concrete status: a connected, approved peer whose login has not expired. -/
def st0 : PeerStatus :=
  { LastSeen := 5, Connected := true, LoginExpired := false, RequiresApproval := true }

/-- A concrete metadata record with a known UIVersion. -/
def m0 : PeerSystemMeta :=
  { Hostname := "host", GoOS := "linux", Kernel := "Linux", Core := "21.04"
    Platform := "x86_64", OS := "Ubuntu", OSVersion := "21.04"
    WtVersion := "0.12", UIVersion := "1.2", KernelVersion := "5.11" }

/-- A concrete store: one IP backing array and one status cell. -/
def s0 : Store :=
  { ipCells := [[192, 168, 0, 1]], statusCells := [st0] }

/-- A concrete peer living in `s0`: its `IP` slice is backed by cell 0 and its
`Status` pointer is cell 0. -/
def p0 : Peer :=
  { ID := "peer1", AccountID := "acct1", Key := "pubkey", SetupKey := "sk"
    IP := 0, Meta := m0, Name := "machine", DNSLabel := "lbl"
    Status := some 0, UserID := "user1", SSHKey := "", SSHEnabled := false
    LoginExpirationEnabled := true, LastLogin := 0, Ephemeral := false
    Location := { ConnectionIP := 0, CountryCode := "DE", CityName := "Berlin", GeoNameID := 1 } }

/-! Helper lemmas about the store and list cells. -/

theorem set_concat_self {α : Type} (l : List α) (x y : α) :
    (l ++ [x]).set l.length y = l ++ [y] := by
  induction l with
  | nil => rfl
  | cons a t ih => simp [List.set, ih]

theorem getElem?_concat_lt {α : Type} (l : List α) (x : α) (a : Nat)
    (h : a < l.length) : (l ++ [x])[a]? = l[a]? := by
  simp [List.getElem?_append, h]

theorem isEqual_eq_true_iff (p q : PeerSystemMeta) :
    p.isEqual q = true ↔ p = q := by
  cases p; cases q
  simp only [PeerSystemMeta.isEqual, PeerSystemMeta.mk.injEq, Bool.and_eq_true,
    beq_iff_eq]
  tauto

theorem isEqual_refl (p : PeerSystemMeta) : p.isEqual p = true :=
  (isEqual_eq_true_iff p p).mpr rfl

/-- `UpdateMetaIfNew` written through `adjustedMeta`. -/
theorem UpdateMetaIfNew_eq (p : Peer) (m : PeerSystemMeta) :
    p.UpdateMetaIfNew m
      = if p.Meta.isEqual (p.adjustedMeta m) then (p, false)
        else ({ p with Meta := p.adjustedMeta m }, true) := rfl

theorem peerStatusCopy_eq (s : Store) (a : Nat) (st : PeerStatus)
    (hst : s.statusCells[a]? = some st) :
    PeerStatus.Copy s a
      = some ({ s with statusCells := s.statusCells ++ [st] }, s.statusCells.length) := by
  cases st
  simp [PeerStatus.Copy, hst, Store.allocStatus]

theorem markLoginExpired_eq (s : Store) (p : Peer) (a : Nat) (st : PeerStatus)
    (expired : Bool) (ha : p.Status = some a) (hst : s.statusCells[a]? = some st) :
    Peer.MarkLoginExpired s p expired
      = some ({ s with statusCells := s.statusCells ++
            [{ st with LoginExpired := expired,
                       Connected := if expired then false else st.Connected }] },
          { p with Status := some s.statusCells.length }) := by
  have hcopy := peerStatusCopy_eq s a st hst
  cases expired with
  | false =>
      simp [Peer.MarkLoginExpired, ha, hcopy, Store.writeLoginExpired,
        List.getElem?_concat_length, Store.setStatusCell, set_concat_self]
  | true =>
      simp [Peer.MarkLoginExpired, ha, hcopy, Store.writeLoginExpired,
        Store.writeConnected, List.getElem?_concat_length, Store.setStatusCell,
        set_concat_self]

theorem updateLastLogin_eq (s : Store) (p : Peer) (a : Nat) (st : PeerStatus)
    (now : Int) (ha : p.Status = some a) (hst : s.statusCells[a]? = some st) :
    Peer.UpdateLastLogin s p now
      = some ({ s with statusCells := s.statusCells ++ [{ st with LoginExpired := false }] },
          { p with LastLogin := now, Status := some s.statusCells.length }) := by
  have hcopy := peerStatusCopy_eq s a st hst
  simp [Peer.UpdateLastLogin, ha, hcopy, Store.writeLoginExpired,
    List.getElem?_concat_length, Store.setStatusCell, set_concat_self]

theorem peerCopy_eq (s : Store) (p : Peer) (a : Nat) (st : PeerStatus)
    (ha : p.Status = some a) (hst : s.statusCells[a]? = some st) :
    Peer.Copy s p
      = some ({ s with statusCells := s.statusCells ++ [st] },
          { p with Status := some s.statusCells.length }) := by
  have hcopy := peerStatusCopy_eq s a st hst
  cases p
  simp_all [Peer.Copy]

/-! Claim theorems. -/

/-- C2: if the incoming metadata's UIVersion is empty, `UpdateMetaIfNew` first
replaces it with the stored UIVersion, so the stored UIVersion is never erased
and a report equal to the stored metadata elsewhere returns "not updated";
a non-empty incoming UIVersion differing from the stored one is stored wholesale
and the call returns "updated". -/
theorem C2_uiversion_preservation (p : Peer) (m : PeerSystemMeta) :
    (m.UIVersion = "" →
      (p.UpdateMetaIfNew m).1.Meta.UIVersion = p.Meta.UIVersion
      ∧ ({ m with UIVersion := p.Meta.UIVersion } = p.Meta →
          p.UpdateMetaIfNew m = (p, false)))
  ∧ (m.UIVersion ≠ "" → m.UIVersion ≠ p.Meta.UIVersion →
      (p.UpdateMetaIfNew m).2 = true ∧ (p.UpdateMetaIfNew m).1.Meta = m) := by
  constructor
  · intro hui
    have hadj : p.adjustedMeta m = { m with UIVersion := p.Meta.UIVersion } := by
      simp [Peer.adjustedMeta, hui]
    constructor
    · rw [UpdateMetaIfNew_eq, hadj]
      split
      · rfl
      · simp
    · intro heq
      rw [UpdateMetaIfNew_eq, hadj, heq, if_pos (isEqual_refl p.Meta)]
  · intro hui hne
    have hadj : p.adjustedMeta m = m := by
      simp [Peer.adjustedMeta, hui]
    have hneq : p.Meta.isEqual m = false := by
      cases h : p.Meta.isEqual m with
      | false => rfl
      | true =>
          exact absurd (congrArg PeerSystemMeta.UIVersion
            ((isEqual_eq_true_iff p.Meta m).mp h)).symm hne
    rw [UpdateMetaIfNew_eq, hadj, hneq]
    exact ⟨rfl, rfl⟩

/-- C2 witness: stored UIVersion "1.2"; an otherwise-identical report with empty
UIVersion is "not updated" and preserves "1.2"; a report with UIVersion "1.3"
is stored and reported "updated". -/
theorem C2_uiversion_preservation_witness :
    ((p0.UpdateMetaIfNew { m0 with UIVersion := "" }).1.Meta.UIVersion = p0.Meta.UIVersion
      ∧ p0.UpdateMetaIfNew { m0 with UIVersion := "" } = (p0, false))
  ∧ ((p0.UpdateMetaIfNew { m0 with UIVersion := "1.3" }).2 = true
      ∧ (p0.UpdateMetaIfNew { m0 with UIVersion := "1.3" }).1.Meta
          = { m0 with UIVersion := "1.3" }) := by
  have h1 := (C2_uiversion_preservation p0 { m0 with UIVersion := "" }).1 rfl
  have h2 := (C2_uiversion_preservation p0 { m0 with UIVersion := "1.3" }).2
    (by decide) (by decide)
  exact ⟨⟨h1.1, h1.2 (by decide)⟩, h2⟩

/-- C3: `UpdateMetaIfNew` compares the adjusted incoming metadata field-wise
(across all ten fields, `isEqual` coinciding with structural equality) with the
stored metadata; if equal it returns "not updated" leaving the peer unchanged,
otherwise it replaces the stored metadata wholesale and returns "updated". -/
theorem C3_wholesale_replacement (p : Peer) (m : PeerSystemMeta) :
    (p.Meta.isEqual (p.adjustedMeta m) = true ↔ p.Meta = p.adjustedMeta m)
  ∧ (p.Meta.isEqual (p.adjustedMeta m) = true → p.UpdateMetaIfNew m = (p, false))
  ∧ (p.Meta.isEqual (p.adjustedMeta m) = false →
      p.UpdateMetaIfNew m = ({ p with Meta := p.adjustedMeta m }, true)) := by
  refine ⟨isEqual_eq_true_iff _ _, ?_, ?_⟩
  · intro h
    rw [UpdateMetaIfNew_eq, if_pos h]
  · intro h
    rw [UpdateMetaIfNew_eq, h]
    simp

/-- C3 witness: an unchanged report is "not updated"; a report with a new
hostname replaces the stored metadata wholesale and is "updated". -/
theorem C3_wholesale_replacement_witness :
    (p0.Meta.isEqual (p0.adjustedMeta m0) = true → p0.UpdateMetaIfNew m0 = (p0, false))
  ∧ (p0.UpdateMetaIfNew m0 = (p0, false))
  ∧ (p0.UpdateMetaIfNew { m0 with Hostname := "other" }
      = ({ p0 with Meta := p0.adjustedMeta { m0 with Hostname := "other" } }, true)) := by
  refine ⟨(C3_wholesale_replacement p0 m0).2.1, ?_, ?_⟩
  · exact (C3_wholesale_replacement p0 m0).2.1 (by decide)
  · exact (C3_wholesale_replacement p0 { m0 with Hostname := "other" }).2.2 (by decide)

/-- C4: calling `UpdateMetaIfNew` twice with the same metadata updates the state
on the first call when the adjusted value differs from the stored one, and the
second call always returns "not updated". -/
theorem C4_metadata_idempotence (p : Peer) (m : PeerSystemMeta) :
    (p.Meta.isEqual (p.adjustedMeta m) = false →
      (p.UpdateMetaIfNew m).1.Meta = p.adjustedMeta m ∧ (p.UpdateMetaIfNew m).2 = true)
  ∧ ((p.UpdateMetaIfNew m).1.UpdateMetaIfNew m).2 = false := by
  constructor
  · intro h
    rw [UpdateMetaIfNew_eq, h]
    simp
  · cases h : p.Meta.isEqual (p.adjustedMeta m) with
    | true =>
        have hinner : p.UpdateMetaIfNew m = (p, false) := by
          rw [UpdateMetaIfNew_eq, if_pos h]
        rw [hinner]
        show (p.UpdateMetaIfNew m).2 = false
        rw [hinner]
    | false =>
        have hinner : p.UpdateMetaIfNew m
            = ({ p with Meta := p.adjustedMeta m }, true) := by
          rw [UpdateMetaIfNew_eq, if_neg (by simp [h])]
        have hq : ({ p with Meta := p.adjustedMeta m } : Peer).adjustedMeta m
            = p.adjustedMeta m := by
          cases hui : (m.UIVersion == "") with
          | true => simp [Peer.adjustedMeta, hui]
          | false => simp [Peer.adjustedMeta, hui]
        rw [hinner]
        show (({ p with Meta := p.adjustedMeta m } : Peer).UpdateMetaIfNew m).2 = false
        rw [UpdateMetaIfNew_eq, if_pos (by rw [hq]; exact isEqual_refl _)]

/-- C4 witness: a changed report updates on the first call and is "not updated"
on the second. -/
theorem C4_metadata_idempotence_witness :
    ((p0.UpdateMetaIfNew { m0 with Hostname := "other" }).1.Meta
        = p0.adjustedMeta { m0 with Hostname := "other" }
      ∧ (p0.UpdateMetaIfNew { m0 with Hostname := "other" }).2 = true)
  ∧ ((p0.UpdateMetaIfNew { m0 with Hostname := "other" }).1.UpdateMetaIfNew
        { m0 with Hostname := "other" }).2 = false := by
  exact ⟨(C4_metadata_idempotence p0 { m0 with Hostname := "other" }).1 (by decide),
    (C4_metadata_idempotence p0 { m0 with Hostname := "other" }).2⟩

/-- C6: a peer not added via SSO login (empty UserID) or with login expiration
disabled never reports expired: `LoginExpired` returns (false, 0) for every
LastLogin, every expiresIn and every clock value. -/
theorem C6_expiration_gating (p : Peer) (expiresIn now : Int)
    (h : p.UserID = "" ∨ p.LoginExpirationEnabled = false) :
    p.LoginExpired expiresIn now = (false, 0) := by
  cases h with
  | inl h => simp [Peer.LoginExpired, Peer.AddedWithSSOLogin, h]
  | inr h => simp [Peer.LoginExpired, h]

/-- C6 witness: a peer with empty UserID reports (false, 0) even long past the
expiry instant. -/
theorem C6_expiration_gating_witness :
    ({ p0 with UserID := "" } : Peer).LoginExpired 3600000000000 999999999999999
      = (false, 0) :=
  C6_expiration_gating { p0 with UserID := "" } 3600000000000 999999999999999
    (Or.inl rfl)

/-- C7: for an SSO-added peer with login expiration enabled, `LoginExpired`
returns timeLeft = LastLogin + expiresIn - now and expired = (timeLeft ≤ 0),
with negative values returned as-is. -/
theorem C7_expiration_arithmetic (p : Peer) (expiresIn now : Int)
    (h1 : p.UserID ≠ "") (h2 : p.LoginExpirationEnabled = true) :
    p.LoginExpired expiresIn now
      = (decide (p.LastLogin + expiresIn - now ≤ 0), p.LastLogin + expiresIn - now) := by
  simp [Peer.LoginExpired, Peer.AddedWithSSOLogin, h1, h2]

/-- C7 witness: LastLogin = 0, expiresIn = 1 hour (in ns), now = 2 hours after
LastLogin yields (true, -1 hour). -/
theorem C7_expiration_arithmetic_witness :
    p0.LoginExpired 3600000000000 7200000000000 = (true, -3600000000000) := by
  have h := C7_expiration_arithmetic p0 3600000000000 7200000000000 (by decide) rfl
  exact h.trans (by decide)

/-- C9: `FQDN` returns the empty string when the DNS domain is empty, and
otherwise the concatenation "{DNSLabel}.{dnsDomain}". -/
theorem C9_fqdn (p : Peer) (dnsDomain : String) :
    (dnsDomain = "" → p.FQDN dnsDomain = "")
  ∧ (dnsDomain ≠ "" → p.FQDN dnsDomain = p.DNSLabel ++ "." ++ dnsDomain) := by
  constructor
  · intro h
    simp [Peer.FQDN, h]
  · intro h
    simp [Peer.FQDN, h]

/-- C9 witness: FQDN("") is empty for a peer with a non-empty DNSLabel, and a
non-empty domain yields label.domain. -/
theorem C9_fqdn_witness :
    p0.FQDN "" = "" ∧ p0.FQDN "netbird.cloud" = p0.DNSLabel ++ "." ++ "netbird.cloud" :=
  ⟨(C9_fqdn p0 "").1 rfl, (C9_fqdn p0 "netbird.cloud").2 (by decide)⟩

/-- C1 counterexample: `Copy` copies the `IP` slice header only, so the copy's
`IP` is the same backing-array address as the original's; writing one byte of
the IP through the copy changes the bytes read through the original `p0`, which
held [192, 168, 0, 1] before and [10, 168, 0, 1] after.  The claim that mutating
any field of the copy (including the IP address) never changes the original is
therefore false. -/
theorem C1_counterexample :
    s0.ipCells[p0.IP]? = some [192, 168, 0, 1]
  ∧ (Peer.Copy s0 p0).map (fun r => r.2.IP) = some p0.IP
  ∧ (Peer.Copy s0 p0).map
      (fun r => (Store.writeIPByte r.1 r.2.IP 0 10).ipCells[p0.IP]?)
      = some (some [10, 168, 0, 1]) := by
  refine ⟨rfl, rfl, rfl⟩

/-- C1 amended: `Copy` returns a Peer whose every field equals the original's,
with `Status` pointing at a freshly allocated cell holding the same PeerStatus
value; the fresh address differs from the original's, the original's status cell
is unchanged, and writes through either status pointer never affect the other
cell.  The `IP` field, however, is the same slice (same backing-array address),
so in-place byte mutations through the copy are visible through the original. -/
theorem C1_deep_copy_amended (s : Store) (p : Peer) (a : Nat) (st : PeerStatus)
    (ha : p.Status = some a) (hst : s.statusCells[a]? = some st) :
    Peer.Copy s p
      = some ({ s with statusCells := s.statusCells ++ [st] },
          { p with Status := some s.statusCells.length })
  ∧ a < s.statusCells.length
  ∧ (s.statusCells ++ [st])[a]? = some st
  ∧ (s.statusCells ++ [st])[s.statusCells.length]? = some st
  ∧ (∀ b, (Store.writeConnected { s with statusCells := s.statusCells ++ [st] }
        s.statusCells.length b).statusCells[a]? = some st)
  ∧ (∀ b, (Store.writeLoginExpired { s with statusCells := s.statusCells ++ [st] }
        s.statusCells.length b).statusCells[a]? = some st)
  ∧ (∀ b, (Store.writeConnected { s with statusCells := s.statusCells ++ [st] }
        a b).statusCells[s.statusCells.length]? = some st) := by
  have hlt : a < s.statusCells.length := (List.getElem?_eq_some.mp hst).1
  have hne : s.statusCells.length ≠ a := (Nat.ne_of_gt hlt)
  have hold : (s.statusCells ++ [st])[a]? = some st :=
    (getElem?_concat_lt s.statusCells st a hlt).trans hst
  have hnew : (s.statusCells ++ [st])[s.statusCells.length]? = some st :=
    List.getElem?_concat_length s.statusCells st
  refine ⟨peerCopy_eq s p a st ha hst, hlt, hold, hnew, ?_, ?_, ?_⟩
  · intro b
    simp only [Store.writeConnected, hnew, Store.setStatusCell]
    rw [List.getElem?_set_ne hne]
    exact hold
  · intro b
    simp only [Store.writeLoginExpired, hnew, Store.setStatusCell]
    rw [List.getElem?_set_ne hne]
    exact hold
  · intro b
    simp only [Store.writeConnected, hold, Store.setStatusCell]
    rw [List.getElem?_set_ne (Ne.symm hne)]
    exact hnew

/-- C1 amended witness at the concrete store `s0` and peer `p0`. -/
theorem C1_deep_copy_amended_witness :
    Peer.Copy s0 p0
      = some ({ s0 with statusCells := s0.statusCells ++ [st0] },
          { p0 with Status := some s0.statusCells.length })
  ∧ 0 < s0.statusCells.length
  ∧ (s0.statusCells ++ [st0])[0]? = some st0
  ∧ (s0.statusCells ++ [st0])[s0.statusCells.length]? = some st0
  ∧ (∀ b, (Store.writeConnected { s0 with statusCells := s0.statusCells ++ [st0] }
        s0.statusCells.length b).statusCells[0]? = some st0)
  ∧ (∀ b, (Store.writeLoginExpired { s0 with statusCells := s0.statusCells ++ [st0] }
        s0.statusCells.length b).statusCells[0]? = some st0)
  ∧ (∀ b, (Store.writeConnected { s0 with statusCells := s0.statusCells ++ [st0] }
        0 b).statusCells[s0.statusCells.length]? = some st0) :=
  C1_deep_copy_amended s0 p0 0 st0 rfl rfl

/-- C5: `MarkLoginExpired` installs a fresh status snapshot equal to the current
one except that LoginExpired is set to the flag and Connected is forced to false
when the flag is true; the previously held status cell is left unchanged. -/
theorem C5_mark_login_expired (s : Store) (p : Peer) (a : Nat) (st : PeerStatus)
    (expired : Bool) (ha : p.Status = some a) (hst : s.statusCells[a]? = some st) :
    Peer.MarkLoginExpired s p expired
      = some ({ s with statusCells := s.statusCells ++
            [{ st with LoginExpired := expired,
                       Connected := if expired then false else st.Connected }] },
          { p with Status := some s.statusCells.length })
  ∧ a < s.statusCells.length
  ∧ (s.statusCells ++ [{ st with LoginExpired := expired, Connected := if expired then false else st.Connected }])[a]? = some st := by
  have hlt : a < s.statusCells.length := (List.getElem?_eq_some.mp hst).1
  refine ⟨markLoginExpired_eq s p a st expired ha hst, hlt, ?_⟩
  exact (getElem?_concat_lt _ _ a hlt).trans hst

/-- C5 witness: on `st0` (Connected = true, LoginExpired = false),
`MarkLoginExpired true` installs a fresh snapshot with Connected = false and
LoginExpired = true at a new address, and the old cell still holds `st0`. -/
theorem C5_mark_login_expired_witness :
    Peer.MarkLoginExpired s0 p0 true
      = some ({ s0 with statusCells := s0.statusCells ++
            [{ st0 with LoginExpired := true,
                        Connected := if true then false else st0.Connected }] },
          { p0 with Status := some s0.statusCells.length })
  ∧ 0 < s0.statusCells.length
  ∧ (s0.statusCells ++ [{ st0 with LoginExpired := true, Connected := if true then false else st0.Connected }])[0]? = some st0 :=
  C5_mark_login_expired s0 p0 0 st0 true rfl rfl

/-- C8: `UpdateLastLogin` sets LastLogin to the supplied current instant,
installs a fresh status copy with LoginExpired forced to false (whatever it was
before), returns exactly the mutated Peer, and leaves the old status cell
unchanged. -/
theorem C8_update_last_login (s : Store) (p : Peer) (a : Nat) (st : PeerStatus)
    (now : Int) (ha : p.Status = some a) (hst : s.statusCells[a]? = some st) :
    Peer.UpdateLastLogin s p now
      = some ({ s with statusCells := s.statusCells ++ [{ st with LoginExpired := false }] },
          { p with LastLogin := now, Status := some s.statusCells.length })
  ∧ a < s.statusCells.length
  ∧ (s.statusCells ++ [{ st with LoginExpired := false }])[a]? = some st := by
  have hlt : a < s.statusCells.length := (List.getElem?_eq_some.mp hst).1
  refine ⟨updateLastLogin_eq s p a st now ha hst, hlt, ?_⟩
  exact (getElem?_concat_lt _ _ a hlt).trans hst

/-- C8 witness: on a status with LoginExpired = true, `UpdateLastLogin` resets
LoginExpired to false and sets LastLogin to the given instant. -/
theorem C8_update_last_login_witness :
    Peer.UpdateLastLogin s0 { p0 with Status := some 0 } 42
      = some ({ s0 with statusCells := s0.statusCells ++ [{ st0 with LoginExpired := false }] },
          { { p0 with Status := some 0 } with LastLogin := 42, Status := some s0.statusCells.length })
  ∧ 0 < s0.statusCells.length
  ∧ (s0.statusCells ++ [{ st0 with LoginExpired := false }])[0]? = some st0 :=
  C8_update_last_login s0 { p0 with Status := some 0 } 0 st0 42 rfl rfl

/-- C10: the snapshots installed by `MarkLoginExpired` and `UpdateLastLogin`
preserve the previous snapshot's LastSeen and RequiresApproval; moreover
`MarkLoginExpired false` and `UpdateLastLogin` leave Connected unchanged. -/
theorem C10_snapshot_frame (s : Store) (p : Peer) (a : Nat) (st : PeerStatus)
    (expired : Bool) (now : Int)
    (ha : p.Status = some a) (hst : s.statusCells[a]? = some st) :
    (Peer.MarkLoginExpired s p expired).map
        (fun r => (r.2.Status, (r.1.statusCells[s.statusCells.length]?).map
          (fun c => (c.LastSeen, c.RequiresApproval))))
      = some (some s.statusCells.length, some (st.LastSeen, st.RequiresApproval))
  ∧ (expired = false →
      (Peer.MarkLoginExpired s p expired).map
          (fun r => (r.1.statusCells[s.statusCells.length]?).map
            (fun c => c.Connected))
        = some (some st.Connected))
  ∧ (Peer.UpdateLastLogin s p now).map
        (fun r => (r.2.Status, (r.1.statusCells[s.statusCells.length]?).map
          (fun c => (c.LastSeen, c.RequiresApproval, c.Connected))))
      = some (some s.statusCells.length, some (st.LastSeen, st.RequiresApproval, st.Connected)) := by
  have hml := markLoginExpired_eq s p a st expired ha hst
  have hul := updateLastLogin_eq s p a st now ha hst
  refine ⟨?_, ?_, ?_⟩
  · rw [hml]
    simp [List.getElem?_concat_length]
  · intro hexp
    subst hexp
    rw [hml]
    simp [List.getElem?_concat_length]
  · rw [hul]
    simp [List.getElem?_concat_length]

/-- C10 witness at the concrete store, with `expired = false`. -/
theorem C10_snapshot_frame_witness :
    (Peer.MarkLoginExpired s0 p0 false).map
        (fun r => (r.2.Status, (r.1.statusCells[s0.statusCells.length]?).map
          (fun c => (c.LastSeen, c.RequiresApproval))))
      = some (some s0.statusCells.length, some (st0.LastSeen, st0.RequiresApproval))
  ∧ (false = false →
      (Peer.MarkLoginExpired s0 p0 false).map
          (fun r => (r.1.statusCells[s0.statusCells.length]?).map
            (fun c => c.Connected))
        = some (some st0.Connected))
  ∧ (Peer.UpdateLastLogin s0 p0 7).map
        (fun r => (r.2.Status, (r.1.statusCells[s0.statusCells.length]?).map
          (fun c => (c.LastSeen, c.RequiresApproval, c.Connected))))
      = some (some s0.statusCells.length, some (st0.LastSeen, st0.RequiresApproval, st0.Connected)) :=
  C10_snapshot_frame s0 p0 0 st0 false 7 rfl rfl

end Netbird
